import Mathlib

/-!
Verification development for the BotShield batch pipeline.

Stage A (src/etl.py) computes per-user behavioural features from a raw
user-profile dump, a selected-id allow-list and a line-oriented tweet stream.
Stage B (src/augment_features.py) joins the Stage A table with split/label
tables and partitions the result.

The embedding works at two levels:

* a character/JSON level for the line-oriented tweet-stream handling of
  Stage A (`parse_line` and the per-line body of `main`'s tweet loop), and
* a record level for everything downstream of the persisted intermediate
  tweet table: rows there are already the typed tuples that the code writes
  to `user_tweets_intermediate.csv`.

Timestamps are modelled as integer epoch seconds (timestamp parsing itself
is done by `pandas.to_datetime`, an external collaborator); floating-point
arithmetic is modelled over `ℚ`.
-/

/-- JSON values as produced by Python's `json.loads`.

Simplifications relative to Python's parser, none of which matters for the
claims under study: numbers are integers only (float literals, `NaN` and
`Infinity` are treated as parse failures), and `\uXXXX` string escapes are
treated as parse failures. A JSON `null` maps to Python `None`. -/
inductive JVal where
  | jnull
  | jbool (b : Bool)
  | jnum (n : Int)
  | jstr (s : String)
  | jarr (elems : List JVal)
  | jobj (fields : List (String × JVal))

/-- Whitespace characters stripped by Python's `str.strip()`. -/
def isPySpace (c : Char) : Bool :=
  c = ' ' ∨ c = '\t' ∨ c = '\n' ∨ c = '\r' ∨ c = '\x0b' ∨ c = '\x0c'

/-- Python `str.strip()` on a character list. -/
def trimChars (cs : List Char) : List Char :=
  ((cs.dropWhile isPySpace).reverse.dropWhile isPySpace).reverse

/-- Skip JSON insignificant whitespace (space, tab, newline, carriage return). -/
def skipWs : List Char → List Char
  | [] => []
  | c :: cs => if c = ' ' ∨ c = '\t' ∨ c = '\n' ∨ c = '\r' then skipWs cs else c :: cs

/-- Decode one JSON string escape character (after a backslash). -/
def escChar (c : Char) : Option Char :=
  if c = '"' then some '"'
  else if c = '\\' then some '\\'
  else if c = '/' then some '/'
  else if c = 'n' then some '\n'
  else if c = 't' then some '\t'
  else if c = 'r' then some '\r'
  else if c = 'b' then some (Char.ofNat 8)
  else if c = 'f' then some (Char.ofNat 12)
  else none

/-- Parse the body of a JSON string (the opening quote already consumed),
returning the decoded characters and the remainder after the closing quote. -/
def parseStrAux : List Char → List Char → Option (List Char × List Char)
  | _, [] => none
  | acc, c :: cs =>
    if c = '"' then some (acc.reverse, cs)
    else if c = '\\' then
      match cs with
      | [] => none
      | e :: cs2 =>
        match escChar e with
        | none => none
        | some ch => parseStrAux (ch :: acc) cs2
    else parseStrAux (c :: acc) cs

/-- Parse a JSON integer literal (optional minus sign, no leading zeros). -/
def parseNum (cs : List Char) : Option (Int × List Char) :=
  let signed : Bool := match cs with | '-' :: _ => true | _ => false
  let body : List Char := match cs with | '-' :: r => r | _ => cs
  match body.span Char.isDigit with
  | (ds, rest2) =>
    match ds with
    | [] => none
    | '0' :: _ :: _ => none
    | _ =>
      let n : Nat := ds.foldl (fun a c => a * 10 + (c.toNat - 48)) 0
      some ((if signed then -(n : Int) else (n : Int)), rest2)

/-- Consume an expected keyword tail, character by character. -/
def eatKw : List Char → List Char → Option (List Char)
  | [], cs => some cs
  | _ :: _, [] => none
  | k :: ks, c :: cs => if c = k then eatKw ks cs else none

mutual

/-- Fuel-bounded recursive-descent parser for one JSON value. -/
def parseVal : Nat → List Char → Option (JVal × List Char)
  | 0, _ => none
  | Nat.succ fuel, cs =>
    match skipWs cs with
    | [] => none
    | c :: rest =>
      if c = 'n' then (eatKw ['u', 'l', 'l'] rest).map (fun r => (JVal.jnull, r))
      else if c = 't' then (eatKw ['r', 'u', 'e'] rest).map (fun r => (JVal.jbool true, r))
      else if c = 'f' then (eatKw ['a', 'l', 's', 'e'] rest).map (fun r => (JVal.jbool false, r))
      else if c = '"' then (parseStrAux [] rest).map (fun p => (JVal.jstr (String.mk p.1), p.2))
      else if c = '\x7b' then
        match skipWs rest with
        | '\x7d' :: r2 => some (JVal.jobj [], r2)
        | r2 => (parseMembers fuel r2).map (fun p => (JVal.jobj p.1, p.2))
      else if c = '[' then
        match skipWs rest with
        | ']' :: r2 => some (JVal.jarr [], r2)
        | r2 => (parseElems fuel r2).map (fun p => (JVal.jarr p.1, p.2))
      else (parseNum (c :: rest)).map (fun p => (JVal.jnum p.1, p.2))
termination_by structural fuel => fuel

/-- Fuel-bounded parser for the members of a JSON object (after `{`). -/
def parseMembers : Nat → List Char → Option (List (String × JVal) × List Char)
  | 0, _ => none
  | Nat.succ fuel, cs =>
    match skipWs cs with
    | '"' :: rest =>
      match parseStrAux [] rest with
      | none => none
      | some (kcs, r1) =>
        match skipWs r1 with
        | ':' :: r2 =>
          match parseVal fuel r2 with
          | none => none
          | some (v, r3) =>
            match skipWs r3 with
            | ',' :: r4 =>
              match parseMembers fuel r4 with
              | none => none
              | some (ms, r5) => some ((String.mk kcs, v) :: ms, r5)
            | '\x7d' :: r4 => some ([(String.mk kcs, v)], r4)
            | _ => none
        | _ => none
    | _ => none
termination_by structural fuel => fuel

/-- Fuel-bounded parser for the elements of a JSON array (after `[`). -/
def parseElems : Nat → List Char → Option (List JVal × List Char)
  | 0, _ => none
  | Nat.succ fuel, cs =>
    match parseVal fuel cs with
    | none => none
    | some (v, r1) =>
      match skipWs r1 with
      | ',' :: r2 =>
        match parseElems fuel r2 with
        | none => none
        | some (vs, r3) => some (v :: vs, r3)
      | ']' :: r2 => some ([v], r2)
      | _ => none
termination_by structural fuel => fuel

end

/-- Python's `json.loads` on a character list: one value, then only
whitespace may remain (otherwise Python raises "Extra data"). `none` models
a raised `json.JSONDecodeError`. -/
def json_loads (cs : List Char) : Option JVal :=
  match parseVal (2 * cs.length + 2) cs with
  | none => none
  | some (v, rest) => if skipWs rest = [] then some v else none

/-- The cleanup performed on each raw tweet-stream line before parsing:
`line.strip()`, then removal of a single trailing comma (src/etl.py:91-94). -/
def stripLine (line : String) : List Char :=
  let cs := trimChars line.data
  match cs.getLast? with
  | some c => if c = ',' then cs.dropLast else cs
  | none => cs

/-- src/etl.py:90-101, `parse_line`: strip, drop one trailing comma, skip a
bare bracket line, then attempt `json.loads`; a decode error yields `none`. -/
def parse_line (line : String) : Option JVal :=
  let cs := stripLine line
  if cs = ['['] ∨ cs = [']'] then none
  else json_loads cs

/-- Python's `int(x)` applied to a JSON value: succeeds on integers, on
booleans (`int(True) = 1`), and on strings of an optionally signed decimal
number (surrounding whitespace tolerated); everything else raises. -/
def pyIntOfChars (cs : List Char) : Option Int :=
  let t := trimChars cs
  let signed : Bool := match t with | '-' :: _ => true | _ => false
  let ds : List Char := match t with | '-' :: r => r | '+' :: r => r | r => r
  if ds = [] ∨ ¬ (ds.all Char.isDigit) then none
  else
    let n : Nat := ds.foldl (fun a c => a * 10 + (c.toNat - 48)) 0
    some (if signed then -(n : Int) else (n : Int))

/-- Python `int(v)` on a decoded JSON value; `none` models a raised
`TypeError`/`ValueError`. -/
def pyInt : JVal → Option Int
  | JVal.jnum n => some n
  | JVal.jstr s => pyIntOfChars s.data
  | JVal.jbool b => some (if b then 1 else 0)
  | _ => none

/-- Python `d[k]` on a decoded JSON value: `none` models a raised `KeyError`
(key absent) or `TypeError` (the value is not an object). A key present with
value `null` yields `some jnull`, as in Python. -/
def getField : JVal → String → Option JVal
  | JVal.jobj fs, k => (fs.find? (fun p => p.1 = k)).map (fun p => p.2)
  | _, _ => none

/-- src/etl.py:116-121: `metrics.get(k)` followed by `if v is None: v = 0` —
an absent key and a `null` value both default to `0`. -/
def fieldOr0 (fs : List (String × JVal)) (k : String) : JVal :=
  match (fs.find? (fun p => p.1 = k)).map (fun p => p.2) with
  | none => JVal.jnum 0
  | some JVal.jnull => JVal.jnum 0
  | some v => v

/-- One matched row of the intermediate tweet table at the JSON level
(src/etl.py:123-130): the raw decoded field values, before any typing. -/
structure RawRow where
  user_id : Int
  tweet_id : JVal
  tweet_text : JVal
  created_at : JVal
  like_count : JVal
  reply_count : JVal

/-- Outcome of Stage A's per-line tweet-loop body (src/etl.py:104-131).
`fatal` models an uncaught Python exception aborting the run. -/
inductive LineResult where
  | skipped
  | notSelected
  | matched (row : RawRow)
  | fatal

/-- The body of the tweet loop in src/etl.py:104-131 for a single line:
`parse_line`, then `int(tweet['author_id'])` (uncaught on failure), the
membership test against the selected-id set, and field extraction for a
matched tweet. -/
def processLine (selected : List Int) (line : String) : LineResult :=
  match parse_line line with
  | none => LineResult.skipped
  | some tweet =>
    match getField tweet "author_id" with
    | none => LineResult.fatal
    | some av =>
      match pyInt av with
      | none => LineResult.fatal
      | some author =>
        if author ∈ selected then
          match (getField tweet "public_metrics").getD (JVal.jobj []) with
          | JVal.jobj mfs =>
            match getField tweet "id", getField tweet "text", getField tweet "created_at" with
            | some tid, some ttext, some tca =>
              LineResult.matched
                { user_id := author, tweet_id := tid, tweet_text := ttext,
                  created_at := tca, like_count := fieldOr0 mfs "like_count",
                  reply_count := fieldOr0 mfs "reply_count" }
            | _, _, _ => LineResult.fatal
          | _ => LineResult.fatal
        else LineResult.notSelected

/-- A user-profile record as consumed by src/etl.py:27-77. Field access in
the code goes through `dict.get`, so every optional field is an `Option`
(`none` models both an absent key and an explicit JSON `null`, which Python's
`dict.get` cannot distinguish). `followers_count`/`following_count` model
`u.get('public_metrics', {}).get(..., 0)`: the `0` default is applied via
`Option.getD` at use sites, so an absent `public_metrics` object and absent
counts coincide. `created_at` is the already-parsed timestamp in epoch
seconds (`pandas.to_datetime` is an external collaborator). -/
structure UserRecord where
  id : Int
  verified : Option Bool
  description : Option String
  profile_image_url : Option String
  location : Option String
  followers_count : Option Int
  following_count : Option Int
  created_at : Option Int
deriving DecidableEq

/-- src/etl.py:40-58: the profile-completeness score. `verified` counts only
when it is exactly `true`; a present description earns one point and a
non-empty one a second; a present image URL and location earn one each. -/
def score (u : UserRecord) : Nat :=
  (if u.verified = some true then 1 else 0)
  + (match u.description with
     | none => 0
     | some d => 1 + (if 0 < d.length then 1 else 0))
  + (if u.profile_image_url.isSome then 1 else 0)
  + (if u.location.isSome then 1 else 0)

/-- The profile-completeness rule as worded by the spec (§4.2): five
independent +1 indicators — verified, description present, description
non-empty, image URL present, location present. Stated independently of the
source's nested conditionals so the two can be compared. -/
def completenessSpec (u : UserRecord) : Nat :=
  (if u.verified = some true then 1 else 0)
  + (if u.description.isSome then 1 else 0)
  + (if 0 < (u.description.getD "").length then 1 else 0)
  + (if u.profile_image_url.isSome then 1 else 0)
  + (if u.location.isSome then 1 else 0)

/-- src/etl.py:60-69: followers/following ratio, `0.0` when `following = 0`
(or negative, per the literal `if following > 0` test). -/
def computeRatio (u : UserRecord) : ℚ :=
  let followers := u.followers_count.getD 0
  let following := u.following_count.getD 0
  if 0 < following then (followers : ℚ) / (following : ℚ) else 0

/-- One row of the `users_data` list built in src/etl.py:74-79. -/
structure ProfileRow where
  user_id : Int
  profile_completeness_score : Nat
  follower_following_ratio : ℚ
  user_created_at : Option Int
deriving DecidableEq

/-- The row appended for a selected user (src/etl.py:74-79). -/
def profileRowOf (u : UserRecord) : ProfileRow :=
  { user_id := u.id, profile_completeness_score := score u,
    follower_following_ratio := computeRatio u, user_created_at := u.created_at }

/-- src/etl.py:28-79: iterate over the profile dump in order, keeping each
record whose integer id is in the selected set. -/
def processUsers (selected : List Int) : List UserRecord → List ProfileRow
  | [] => []
  | u :: rest =>
    if u.id ∈ selected then profileRowOf u :: processUsers selected rest
    else processUsers selected rest

/-- One typed row of the persisted intermediate tweet table
(`user_tweets_intermediate.csv`): the fields extracted in src/etl.py:123-130,
with `created_at` already parsed to epoch seconds and `tweet_text` a string
(a JSON `null` text would surface here as `""` via the later
`fillna("")`). -/
structure TweetRow where
  user_id : Int
  tweet_id : Int
  tweet_text : String
  created_at : Int
  like_count : Int
  reply_count : Int
deriving DecidableEq

/-- The tweet-stream filter (src/etl.py:111): keep rows whose author id is
in the selected set. -/
def matchTweets (selected : List Int) (tweets : List TweetRow) : List TweetRow :=
  tweets.filter (fun t => t.user_id ∈ selected)

/-- The group of intermediate rows belonging to one user. -/
def tweetsOf (rows : List TweetRow) (uid : Int) : List TweetRow :=
  rows.filter (fun t => t.user_id = uid)

/-- One row of the `tweet_features` aggregate table (src/etl.py:164-180). -/
structure AggRow where
  user_id : Int
  total_likes_received : Int
  total_replies_received : Int
  avg_tweet_text_length : ℚ
  obs_tweet_count : Nat
deriving DecidableEq

/-- The per-user aggregate computed by the `groupby('user_id').agg` call
(src/etl.py:164-169): sum of likes, sum of replies, mean text length
(character count), and the tweet count. -/
def aggFor (rows : List TweetRow) (uid : Int) : AggRow :=
  let g := tweetsOf rows uid
  { user_id := uid
    total_likes_received := (g.map (fun t => t.like_count)).sum
    total_replies_received := (g.map (fun t => t.reply_count)).sum
    avg_tweet_text_length :=
      if g.length = 0 then 0
      else ((g.map (fun t => (t.tweet_text.length : ℚ))).sum) / (g.length : ℚ)
    obs_tweet_count := g.length }

/-- The aggregate table: one row per distinct `user_id` of the intermediate
table (pandas `groupby` keys; key order is irrelevant downstream because the
table is only probed by key). -/
def tweet_features (rows : List TweetRow) : List AggRow :=
  ((rows.map (fun t => t.user_id)).dedup).map (aggFor rows)

/-- Probe the aggregate table for one user's row — the per-key view of the
left merge in src/etl.py:184. -/
def lookupAgg (tf : List AggRow) (uid : Int) : Option AggRow :=
  tf.find? (fun a => a.user_id = uid)

/-- src/etl.py:146-153: `dataset_end_date` is the maximum tweet timestamp
when the intermediate table is non-empty, otherwise the current wall-clock
time `now` (the code's `datetime.now(timezone.utc)` fallback branch). -/
def dataset_end_date (rows : List TweetRow) (now : Int) : Int :=
  match rows.map (fun t => t.created_at) with
  | [] => now
  | t :: ts => ts.foldl max t

/-- src/etl.py:196-202: `(dataset_end_date - created_at).days` (pandas
`Timedelta.days` floors toward minus infinity, hence `Int.fdiv` by 86400),
clamped below at 1 by `clip(lower=1)`. `none` models the NaT/NaN row a
profile with no `created_at` would produce. -/
def account_age_days_of (endD : Int) (created : Option Int) : Option Int :=
  created.map (fun c => max 1 (Int.fdiv (endD - c) 86400))

/-- One row of `final_df` after the merge, the zero fills and the derived
columns (src/etl.py:183-204): all columns in scope just before the final
column projection. -/
structure FinalRow where
  user_id : Int
  profile_completeness_score : Nat
  follower_following_ratio : ℚ
  user_created_at : Option Int
  total_likes_received : Int
  total_replies_received : Int
  avg_tweet_text_length : ℚ
  obs_tweet_count : Nat
  account_age_days : Option Int
  avg_tweets_per_day : Option ℚ
deriving DecidableEq

/-- The left merge of one profile row with the aggregate table plus the
`fillna` zero fills and the rate columns (src/etl.py:183-204): a user found
in the aggregate table takes its aggregates; a user with no matched tweets
takes `total_likes_received = 0, total_replies_received = 0,
avg_tweet_text_length = 0, obs_tweet_count = 0`. -/
def mkFinalRow (rows : List TweetRow) (endD : Int) (p : ProfileRow) : FinalRow :=
  let age := account_age_days_of endD p.user_created_at
  match lookupAgg (tweet_features rows) p.user_id with
  | some a =>
    { user_id := p.user_id
      profile_completeness_score := p.profile_completeness_score
      follower_following_ratio := p.follower_following_ratio
      user_created_at := p.user_created_at
      total_likes_received := a.total_likes_received
      total_replies_received := a.total_replies_received
      avg_tweet_text_length := a.avg_tweet_text_length
      obs_tweet_count := a.obs_tweet_count
      account_age_days := age
      avg_tweets_per_day := age.map (fun d : Int => (a.obs_tweet_count : ℚ) / (d : ℚ)) }
  | none =>
    { user_id := p.user_id
      profile_completeness_score := p.profile_completeness_score
      follower_following_ratio := p.follower_following_ratio
      user_created_at := p.user_created_at
      total_likes_received := 0
      total_replies_received := 0
      avg_tweet_text_length := 0
      obs_tweet_count := 0
      account_age_days := age
      avg_tweets_per_day := age.map (fun d : Int => (0 : ℚ) / (d : ℚ)) }

/-- Outcome of a batch run; `error` models an uncaught Python exception. -/
inductive RunResult (α : Type) where
  | ok (out : α)
  | error (msg : String)
deriving DecidableEq

/-- Stage A downstream of the raw parsing (src/etl.py main): filter tweets
to the selected set, aggregate, left-merge onto the selected profiles, fill
zeros, derive age and rate columns.

Faithful failure modes: when no tweet matched at all, `csv_rows` is empty,
`pd.DataFrame([])` has no columns, and `df_tweets['created_at']` at
src/etl.py:143 raises `KeyError` — before the `df_tweets.empty` fallback is
consulted. Likewise, when no profile matched, `df_users` has no columns and
the `merge(on='user_id')` at src/etl.py:184 raises `KeyError`. -/
def stageA (selected : List Int) (all_users : List UserRecord)
    (tweets : List TweetRow) (now : Int) : RunResult (List FinalRow) :=
  let profiles := processUsers selected all_users
  let rows := matchTweets selected tweets
  if rows = [] then RunResult.error "KeyError: created_at"
  else if profiles = [] then RunResult.error "KeyError: user_id"
  else RunResult.ok (profiles.map (mkFinalRow rows (dataset_end_date rows now)))

/-- The row list of a successful run (empty for an aborted run). -/
def rowsOf : RunResult (List FinalRow) → List FinalRow
  | RunResult.ok out => out
  | RunResult.error _ => []

/-- src/augment_features.py:14-22, `normalize_id`: `str.replace('u', '')`
removes EVERY occurrence of the character `u` (not just a prefix), then
`pd.to_numeric(..., errors='coerce')` parses the result as a number, giving
the nullable-integer null (modelled `none`) when it is not numeric. -/
def normalize_id (s : String) : Option Int :=
  pyIntOfChars (s.data.filter (fun c => ¬ c = 'u'))

/-- The normalization rule as the claim words it: strip a one-character
alphabetic prefix and parse the remainder as an integer (null marker when
the remainder is not numeric). Stated for comparison with `normalize_id`. -/
def normalize_id_claimed (s : String) : Option Int :=
  match s.data with
  | [] => none
  | c :: rest => if c.isAlpha then pyIntOfChars rest else none

/-- One row of `final_features.csv` as read back by Stage B: the user id and
the six feature columns, in the Stage A output order. -/
structure FeatRow where
  user_id : Int
  profile_completeness_score : ℚ
  total_likes_received : ℚ
  total_replies_received : ℚ
  avg_tweets_per_day : ℚ
  avg_tweet_text_length : ℚ
  follower_following_ratio : ℚ
deriving DecidableEq

/-- The split (or label) values joined to one key: every matching table
entry, or a single null when none matches — pandas left-merge semantics,
duplicate right keys included. A `none` key (failed normalization) never
matches, as a nullable-integer null compares unequal to every id. -/
def joinRow (tbl : List (Option Int × String)) (k : Int) : List (Option String) :=
  match tbl.filter (fun e => e.1 = some k) with
  | [] => [none]
  | ms => ms.map (fun e => some e.2)

/-- Left merge of a row list with a two-column external table on an integer
key (src/augment_features.py:55-58). -/
def leftJoin {α : Type} (rows : List α) (key : α → Int)
    (tbl : List (Option Int × String)) : List (α × Option String) :=
  match rows with
  | [] => []
  | r :: rs => ((joinRow tbl (key r)).map (fun s => (r, s))) ++ leftJoin rs key tbl

/-- One row of the augmented table: the untouched feature row plus the
resolved `split` and `label` strings (post-`fillna`). -/
structure AugRow where
  feat : FeatRow
  split : String
  label : String
deriving DecidableEq

/-- src/augment_features.py main, through the `fillna` step: a missing split
or label file (`none`) is replaced by an empty table
(src/augment_features.py:33-49); an existing file's keys are normalized;
the feature table is left-joined with the split table then the label table;
unresolved values fall to the sentinel `"unknown"`
(src/augment_features.py:60-61). -/
def stageB_augment (feats : List FeatRow)
    (splitFile labelFile : Option (List (String × String))) : List AugRow :=
  let st := (splitFile.getD []).map (fun e => (normalize_id e.1, e.2))
  let lt := (labelFile.getD []).map (fun e => (normalize_id e.1, e.2))
  let m1 := leftJoin feats (fun f => f.user_id) st
  let m2 := leftJoin m1 (fun q => q.1.user_id) lt
  m2.map (fun q =>
    { feat := q.1.1, split := q.1.2.getD "unknown", label := q.2.getD "unknown" })

/-- src/augment_features.py:74-77: the subset written for one recognized
split value, by exact string match on the `split` column. -/
def subsetFor (aug : List AugRow) (name : String) : List AugRow :=
  aug.filter (fun r => r.split = name)

/-- Demo profile: verified, non-empty description, image and location
present, 10 followers / 5 following, created at epoch 0. -/
def uDemo : UserRecord :=
  { id := 1, verified := some true, description := some "hi",
    profile_image_url := some "p", location := some "l",
    followers_count := some 10, following_count := some 5, created_at := some 0 }

/-- Demo profile sharing `uDemo`'s id but differing in content. -/
def uDemoDup : UserRecord :=
  { id := 1, verified := none, description := none,
    profile_image_url := none, location := none,
    followers_count := none, following_count := none, created_at := some 0 }

/-- Demo tweet for user 1, ten days after epoch. -/
def tDemo : TweetRow :=
  { user_id := 1, tweet_id := 100, tweet_text := "hey",
    created_at := 864000, like_count := 3, reply_count := 2 }

/-- Second demo tweet for user 1, shortly after epoch. -/
def tDemo2 : TweetRow :=
  { user_id := 1, tweet_id := 101, tweet_text := "yo",
    created_at := 100, like_count := 1, reply_count := 0 }

/-- The single Stage A output row of the demo run
`stageA [1] [uDemo] [tDemo] 0`, as the term the pipeline produces. -/
def rDemo : FinalRow :=
  mkFinalRow (matchTweets [1] [tDemo])
    (dataset_end_date (matchTweets [1] [tDemo]) 0) (profileRowOf uDemo)

/-- Demo Stage B feature row for user 12. -/
def fDemo : FeatRow :=
  { user_id := 12, profile_completeness_score := 3, total_likes_received := 7,
    total_replies_received := 1, avg_tweets_per_day := 1 / 2,
    avg_tweet_text_length := 5, follower_following_ratio := 2 }

lemma aggFor_user_id (rows : List TweetRow) (uid : Int) :
    (aggFor rows uid).user_id = uid := rfl

lemma aggFor_obs (rows : List TweetRow) (uid : Int) :
    (aggFor rows uid).obs_tweet_count = (tweetsOf rows uid).length := rfl

lemma mkFinalRow_user_id (rows : List TweetRow) (endD : Int) (p : ProfileRow) :
    (mkFinalRow rows endD p).user_id = p.user_id := by
  unfold mkFinalRow
  split <;> rfl

lemma mkFinalRow_age (rows : List TweetRow) (endD : Int) (p : ProfileRow) :
    (mkFinalRow rows endD p).account_age_days
      = account_age_days_of endD p.user_created_at := by
  unfold mkFinalRow
  split <;> rfl

lemma find_aggFor (rows : List TweetRow) (uid : Int) :
    ∀ L : List Int, (L.map (aggFor rows)).find? (fun a => a.user_id = uid)
      = if uid ∈ L then some (aggFor rows uid) else none := by
  intro L
  induction L with
  | nil => rfl
  | cons v vs ih =>
    by_cases hv : v = uid
    · subst hv
      simp [List.find?_cons, aggFor_user_id]
    · have hv2 : ¬ uid = v := fun h => hv h.symm
      simp [List.find?_cons, aggFor_user_id, hv, hv2, ih, List.mem_cons]

lemma lookupAgg_eq (rows : List TweetRow) (uid : Int) :
    lookupAgg (tweet_features rows) uid
      = if uid ∈ (rows.map (fun t => t.user_id)).dedup
        then some (aggFor rows uid) else none :=
  find_aggFor rows uid _

lemma tweetsOf_eq_nil_iff (rows : List TweetRow) (uid : Int) :
    tweetsOf rows uid = [] ↔ uid ∉ rows.map (fun t => t.user_id) := by
  unfold tweetsOf
  rw [List.filter_eq_nil_iff]
  constructor
  · intro h hm
    rcases List.mem_map.mp hm with ⟨t, ht, hid⟩
    exact h t ht (by simp [hid])
  · intro h t ht
    simp only [decide_eq_true_iff]
    intro hid
    exact h (List.mem_map.mpr ⟨t, ht, hid⟩)

lemma mkFinalRow_obs (rows : List TweetRow) (endD : Int) (p : ProfileRow) :
    (mkFinalRow rows endD p).obs_tweet_count = (tweetsOf rows p.user_id).length := by
  rw [mkFinalRow, lookupAgg_eq]
  by_cases hm : p.user_id ∈ (rows.map (fun t => t.user_id)).dedup
  · rw [if_pos hm]
    exact aggFor_obs rows p.user_id
  · rw [if_neg hm]
    have hnil : tweetsOf rows p.user_id = [] :=
      (tweetsOf_eq_nil_iff rows p.user_id).mpr (fun h => hm (List.mem_dedup.mpr h))
    simp [hnil]

lemma mkFinalRow_avg (rows : List TweetRow) (endD : Int) (p : ProfileRow) :
    (mkFinalRow rows endD p).avg_tweets_per_day
      = (account_age_days_of endD p.user_created_at).map
          (fun d : Int => (((mkFinalRow rows endD p).obs_tweet_count : ℚ)) / (d : ℚ)) := by
  unfold mkFinalRow
  split <;> simp

lemma mkFinalRow_zero (rows : List TweetRow) (endD : Int) (p : ProfileRow)
    (h : lookupAgg (tweet_features rows) p.user_id = none) :
    (mkFinalRow rows endD p).total_likes_received = 0
      ∧ (mkFinalRow rows endD p).total_replies_received = 0
      ∧ (mkFinalRow rows endD p).avg_tweet_text_length = 0
      ∧ (mkFinalRow rows endD p).obs_tweet_count = 0 := by
  unfold mkFinalRow
  rw [h]
  exact ⟨rfl, rfl, rfl, rfl⟩

lemma mem_processUsers (selected : List Int) :
    ∀ users : List UserRecord, ∀ p ∈ processUsers selected users,
      ∃ u ∈ users, u.id ∈ selected ∧ p = profileRowOf u := by
  intro users
  induction users with
  | nil => intro p hp; cases hp
  | cons u us ih =>
    intro p hp
    by_cases hu : u.id ∈ selected
    · rw [processUsers, if_pos hu] at hp
      rcases List.mem_cons.mp hp with hpe | hp
      · exact ⟨u, List.mem_cons_self u us, hu, hpe⟩
      · rcases ih p hp with ⟨v, hv, hvs, hpe⟩
        exact ⟨v, List.mem_cons_of_mem u hv, hvs, hpe⟩
    · rw [processUsers, if_neg hu] at hp
      rcases ih p hp with ⟨v, hv, hvs, hpe⟩
      exact ⟨v, List.mem_cons_of_mem u hv, hvs, hpe⟩

lemma countP_map_mkFinalRow (rows : List TweetRow) (endD : Int) (uid : Int) :
    ∀ ps : List ProfileRow,
      List.countP (fun r => decide (r.user_id = uid)) (ps.map (mkFinalRow rows endD))
        = List.countP (fun p => decide (p.user_id = uid)) ps := by
  intro ps
  induction ps with
  | nil => rfl
  | cons p ps ih =>
    simp [List.countP_cons, ih, mkFinalRow_user_id]

lemma countP_processUsers (selected : List Int) (uid : Int) (hsel : uid ∈ selected) :
    ∀ users : List UserRecord,
      List.countP (fun p => decide (p.user_id = uid)) (processUsers selected users)
        = List.countP (fun u => decide (u.id = uid)) users := by
  intro users
  induction users with
  | nil => rfl
  | cons u us ih =>
    by_cases hu : u.id ∈ selected
    · by_cases hid : u.id = uid
      · have hu2 : uid ∈ selected := hid ▸ hu
        simp [processUsers, hu, hu2, hid, List.countP_cons, ih, profileRowOf]
      · simp [processUsers, hu, hid, List.countP_cons, ih, profileRowOf]
    · by_cases hid : u.id = uid
      · exact absurd (hid ▸ hsel) hu
      · simp [processUsers, hu, hid, List.countP_cons, ih]

lemma count_users_eq_one (uid : Int) :
    ∀ users : List UserRecord, (users.map (fun u => u.id)).Nodup →
      uid ∈ users.map (fun u => u.id) →
      List.countP (fun u => decide (u.id = uid)) users = 1 := by
  intro users
  induction users with
  | nil => intro _ h; cases h
  | cons u us ih =>
    intro hnd hm
    rw [List.map_cons, List.nodup_cons] at hnd
    rcases hnd with ⟨hnotin, hnd⟩
    rw [List.countP_cons]
    by_cases hid : u.id = uid
    · have hz : List.countP (fun v => decide (v.id = uid)) us = 0 := by
        rw [List.countP_eq_zero]
        intro v hv
        simp only [decide_eq_true_iff]
        intro hvid
        exact hnotin (hid ▸ hvid ▸ List.mem_map.mpr ⟨v, hv, rfl⟩)
      simp [hz, hid]
    · have hm2 : uid ∈ us.map (fun u => u.id) := by
        rcases List.mem_cons.mp hm with h | h
        · exact absurd h.symm hid
        · exact h
      simp [ih hnd hm2, hid]

lemma stageA_ok_elim {selected : List Int} {users : List UserRecord}
    {tweets : List TweetRow} {now : Int} {out : List FinalRow}
    (h : stageA selected users tweets now = RunResult.ok out) :
    out = (processUsers selected users).map
      (mkFinalRow (matchTweets selected tweets)
        (dataset_end_date (matchTweets selected tweets) now)) := by
  simp only [stageA] at h
  split at h
  · exact RunResult.noConfusion h
  · split at h
    · exact RunResult.noConfusion h
    · exact (RunResult.ok.inj h).symm

/-- C1 (amended): provided the profile source lists each user id at most
once, every `user_id` that is in the selected set and appears in the profile
source appears exactly once as a row of the final Stage A table, and when it
has zero matched tweets its aggregate columns (total likes, total replies,
average text length, observed tweet count) are all zero. -/
theorem C1_unique_row_thm (selected : List Int) (users : List UserRecord)
    (tweets : List TweetRow) (now uid : Int) (out : List FinalRow)
    (hnodup : (users.map (fun u => u.id)).Nodup)
    (hsel : uid ∈ selected)
    (hmem : uid ∈ users.map (fun u => u.id))
    (hrun : stageA selected users tweets now = RunResult.ok out) :
    ((out.filter (fun r => r.user_id = uid)).length = 1)
    ∧ (∀ r ∈ out, r.user_id = uid →
        tweetsOf (matchTweets selected tweets) uid = [] →
          r.total_likes_received = 0 ∧ r.total_replies_received = 0
            ∧ r.avg_tweet_text_length = 0 ∧ r.obs_tweet_count = 0) := by
  have hout := stageA_ok_elim hrun
  subst hout
  constructor
  · rw [← List.countP_eq_length_filter, countP_map_mkFinalRow,
      countP_processUsers selected uid hsel, count_users_eq_one uid users hnodup hmem]
  · intro r hr hruid htw
    rcases List.mem_map.mp hr with ⟨p, hp, hpe⟩
    subst hpe
    have hpuid : p.user_id = uid := by rw [← hruid, mkFinalRow_user_id]
    have hlook :
        lookupAgg (tweet_features (matchTweets selected tweets)) p.user_id = none := by
      rw [lookupAgg_eq, if_neg]
      intro hmm
      have hin := List.mem_dedup.mp hmm
      rw [hpuid] at hin
      exact absurd hin ((tweetsOf_eq_nil_iff _ _).mp htw)
    exact mkFinalRow_zero _ _ p hlook

/-- C1 counterexample: a run whose profile source lists id 1 twice; id 1 is
selected and appears in the profile source, yet the final table holds two
rows for it — the claim's "exactly once" fails as stated. -/
theorem C1_duplicate_profile_cex :
    (1 : Int) ∈ ([1] : List Int)
    ∧ (1 : Int) ∈ [uDemo, uDemoDup].map (fun u => u.id)
    ∧ ((rowsOf (stageA [1] [uDemo, uDemoDup] [tDemo] 0)).filter
        (fun r => r.user_id = 1)).length = 2 := by
  refine ⟨by decide, by decide, by decide⟩

/-- C1 witness: on the demo run the selected, profile-present id 1 appears
exactly once in the Stage A output. -/
theorem C1_unique_row_witness :
    ((rowsOf (stageA [1] [uDemo] [tDemo] 0)).filter
      (fun r => r.user_id = 1)).length = 1 :=
  (C1_unique_row_thm [1] [uDemo] [tDemo] 0 1 (rowsOf (stageA [1] [uDemo] [tDemo] 0))
    (by decide) (by decide) (by decide) rfl).1

/-- C2: the profile-completeness score computed by Stage A agrees with the
spec's five-indicator rule, always lies in [0,5] (it is a `Nat`, so the
lower bound is by type), and a verified user with a non-empty description,
an image URL and a location scores exactly 5. Absent fields contribute 0 —
`score` is total on `UserRecord`, so no input faults. -/
theorem C2_completeness_thm (u : UserRecord) :
    score u = completenessSpec u
    ∧ score u ≤ 5
    ∧ ((u.verified = some true ∧ (∃ d, u.description = some d ∧ 0 < d.length)
        ∧ u.profile_image_url.isSome = true ∧ u.location.isSome = true) →
        score u = 5) := by
  refine ⟨?_, ?_, ?_⟩
  · cases hd : u.description with
    | none => simp [score, completenessSpec, hd]
    | some d =>
      simp only [score, completenessSpec, hd, Option.getD_some, Option.isSome_some]
      split_ifs <;> omega
  · cases hd : u.description with
    | none => simp only [score, hd]; split_ifs <;> omega
    | some d => simp only [score, hd]; split_ifs <;> omega
  · rintro ⟨hv, ⟨d, hd, hdl⟩, hi, hl⟩
    simp [score, hv, hd, hdl, hi, hl]

/-- C2 witness: the fully-populated demo profile scores exactly 5, and the
score agrees with the spec rule there. -/
theorem C2_completeness_witness : score uDemo = 5 :=
  (C2_completeness_thm uDemo).2.2 ⟨rfl, ⟨"hi", rfl, by decide⟩, rfl, rfl⟩

/-- C4 (code bug): with zero matched tweets Stage A raises
`KeyError: 'created_at'` (the empty intermediate frame has no columns)
before ever reaching the `datetime.now` fallback, so the run does not
complete; the isolated end-date computation itself does fall back to `now`
on an empty table and takes the maximum timestamp on a non-empty one,
as the claim describes. -/
theorem C4_empty_stream_keyerror_thm :
    stageA [1] [uDemo] [] 7 = RunResult.error "KeyError: created_at"
    ∧ dataset_end_date [] 7 = 7
    ∧ dataset_end_date [tDemo2, tDemo] 7 = 864000 :=
  ⟨rfl, rfl, rfl⟩

/-- C8: whenever the run completes and every profile record carries a
`created_at` timestamp, every output row's `account_age_days` is defined and
at least 1 (the `clip(lower=1)`), even when `created_at` equals
`dataset_end_date`. -/
theorem C8_age_clamp_thm (selected : List Int) (users : List UserRecord)
    (tweets : List TweetRow) (now : Int) (out : List FinalRow)
    (hca : ∀ u ∈ users, (u.created_at).isSome = true)
    (hrun : stageA selected users tweets now = RunResult.ok out) :
    ∀ r ∈ out, ∃ d : Int, r.account_age_days = some d ∧ 1 ≤ d := by
  have hout := stageA_ok_elim hrun
  subst hout
  intro r hr
  rcases List.mem_map.mp hr with ⟨p, hp, hpe⟩
  rcases mem_processUsers selected users p hp with ⟨u, hu, _, hpu⟩
  rcases Option.isSome_iff_exists.mp (hca u hu) with ⟨c, hc⟩
  subst hpe
  subst hpu
  rw [mkFinalRow_age]
  simp only [profileRowOf]
  rw [hc]
  exact ⟨_, rfl, le_max_left 1 _⟩

/-- C8 witness: the demo run's single row (user created at the epoch, last
tweet ten days later) has `account_age_days = some 10 ≥ 1`. -/
theorem C8_age_clamp_witness :
    ∃ d : Int, rDemo.account_age_days = some d ∧ 1 ≤ d :=
  C8_age_clamp_thm [1] [uDemo] [tDemo] 0 (rowsOf (stageA [1] [uDemo] [tDemo] 0))
    (by decide) rfl rDemo (List.Mem.head _)

/-- C9: whenever the run completes and every profile record carries a
`created_at` timestamp, every output row satisfies
`avg_tweets_per_day = obs_tweet_count / account_age_days` exactly, where
`obs_tweet_count` is the number of matched tweet rows observed for that user
in the stream. -/
theorem C9_rate_thm (selected : List Int) (users : List UserRecord)
    (tweets : List TweetRow) (now : Int) (out : List FinalRow)
    (hca : ∀ u ∈ users, (u.created_at).isSome = true)
    (hrun : stageA selected users tweets now = RunResult.ok out) :
    ∀ r ∈ out, ∃ d : Int, r.account_age_days = some d
      ∧ r.avg_tweets_per_day = some ((r.obs_tweet_count : ℚ) / (d : ℚ))
      ∧ r.obs_tweet_count = (tweetsOf (matchTweets selected tweets) r.user_id).length := by
  have hout := stageA_ok_elim hrun
  subst hout
  intro r hr
  rcases List.mem_map.mp hr with ⟨p, hp, hpe⟩
  rcases mem_processUsers selected users p hp with ⟨u, hu, _, hpu⟩
  rcases Option.isSome_iff_exists.mp (hca u hu) with ⟨c, hc⟩
  subst hpe
  subst hpu
  refine ⟨max 1 (Int.fdiv (dataset_end_date (matchTweets selected tweets) now - c) 86400),
    ?_, ?_, ?_⟩
  · rw [mkFinalRow_age]
    simp only [profileRowOf]
    rw [hc]
    rfl
  · rw [mkFinalRow_avg]
    simp only [profileRowOf]
    rw [hc]
    rfl
  · rw [mkFinalRow_obs, mkFinalRow_user_id]

/-- C9 witness: on the demo run the single row has a defined age, the exact
rate equation, and an observed count equal to its matched-row count. -/
theorem C9_rate_witness :
    ∃ d : Int, rDemo.account_age_days = some d
      ∧ rDemo.avg_tweets_per_day = some ((rDemo.obs_tweet_count : ℚ) / (d : ℚ))
      ∧ rDemo.obs_tweet_count = (tweetsOf (matchTweets [1] [tDemo]) rDemo.user_id).length :=
  C9_rate_thm [1] [uDemo] [tDemo] 0 (rowsOf (stageA [1] [uDemo] [tDemo] 0))
    (by decide) rfl rDemo (List.Mem.head _)

/-- C3 (amended): for every tweet-stream line, after stripping and dropping
one trailing comma, a bare bracket line is skipped and a line whose
remainder fails JSON parsing is silently skipped — never fatal; but a line
that parses as valid JSON whose record lacks an integer-coercible
`author_id` raises an uncaught exception (`int(tweet['author_id'])`) that is
fatal to the run. -/
theorem C3_line_handling_thm (selected : List Int) (line : String) :
    ((stripLine line = ['['] ∨ stripLine line = [']']) →
      processLine selected line = LineResult.skipped)
    ∧ (json_loads (stripLine line) = none →
      processLine selected line = LineResult.skipped)
    ∧ (∀ j : JVal, json_loads (stripLine line) = some j →
        (getField j "author_id").bind pyInt = none →
        processLine selected line = LineResult.fatal) := by
  refine ⟨?_, ?_, ?_⟩
  · intro hb
    have hpl : parse_line line = none := by unfold parse_line; rw [if_pos hb]
    simp [processLine, hpl]
  · intro hn
    by_cases hb : stripLine line = ['['] ∨ stripLine line = [']']
    · have hpl : parse_line line = none := by unfold parse_line; rw [if_pos hb]
      simp [processLine, hpl]
    · have hpl : parse_line line = none := by unfold parse_line; rw [if_neg hb]; exact hn
      simp [processLine, hpl]
  · intro j hj ha
    by_cases hb : stripLine line = ['['] ∨ stripLine line = [']']
    · exfalso
      rcases hb with hb | hb <;> rw [hb] at hj
      · exact Option.noConfusion (show (none : Option JVal) = some j from hj)
      · exact Option.noConfusion (show (none : Option JVal) = some j from hj)
    · have hpl : parse_line line = some j := by unfold parse_line; rw [if_neg hb]; exact hj
      cases hg : getField j "author_id" with
      | none => simp [processLine, hpl, hg]
      | some av =>
        have hpv : pyInt av = none := by rw [hg] at ha; simpa using ha
        simp [processLine, hpl, hg, hpv]

/-- C3 counterexample: the line consisting of the empty JSON object parses
successfully (it is not a parse failure), yet the run is fatal on it —
`tweet['author_id']` raises `KeyError` — contradicting "a malformed
tweet-stream line is never fatal to the run". -/
theorem C3_partial_record_fatal_cex :
    parse_line "\x7b\x7d" = some (JVal.jobj [])
    ∧ processLine [1] "\x7b\x7d" = LineResult.fatal :=
  ⟨rfl, rfl⟩

/-- C3 witness: a line that is not valid JSON is silently skipped. -/
theorem C3_line_handling_witness :
    processLine [1] "this line is not valid JSON" = LineResult.skipped :=
  (C3_line_handling_thm [1] "this line is not valid JSON").2.1 rfl

lemma mem_joinRow {tbl : List (Option Int × String)} {k : Int} {s : Option String}
    (h : s ∈ joinRow tbl k) :
    (s = none ∧ ∀ e ∈ tbl, ¬ e.1 = some k)
    ∨ (∃ e ∈ tbl, e.1 = some k ∧ s = some e.2) := by
  unfold joinRow at h
  cases hfil : tbl.filter (fun e => e.1 = some k) with
  | nil =>
    rw [hfil] at h
    left
    have hs : s = none := List.mem_singleton.mp h
    refine ⟨hs, ?_⟩
    intro e he hek
    have hmem : e ∈ tbl.filter (fun e => e.1 = some k) :=
      List.mem_filter.mpr ⟨he, by simp [hek]⟩
    rw [hfil] at hmem
    cases hmem
  | cons a as =>
    rw [hfil] at h
    right
    rcases List.mem_map.mp h with ⟨e, he, hes⟩
    have hmem : e ∈ tbl.filter (fun e => e.1 = some k) := by rw [hfil]; exact he
    rcases List.mem_filter.mp hmem with ⟨het, hek⟩
    exact ⟨e, het, by simpa using hek, hes.symm⟩

lemma mem_leftJoin {α : Type} {key : α → Int} {tbl : List (Option Int × String)} :
    ∀ {rows : List α} {q : α × Option String}, q ∈ leftJoin rows key tbl →
      q.1 ∈ rows
      ∧ ((q.2 = none ∧ ∀ e ∈ tbl, ¬ e.1 = some (key q.1))
        ∨ (∃ e ∈ tbl, e.1 = some (key q.1) ∧ q.2 = some e.2)) := by
  intro rows
  induction rows with
  | nil => intro q hq; cases hq
  | cons r rs ih =>
    intro q hq
    rw [leftJoin] at hq
    rcases List.mem_append.mp hq with hq | hq
    · rcases List.mem_map.mp hq with ⟨s, hs, hqe⟩
      subst hqe
      exact ⟨List.mem_cons_self r rs, mem_joinRow hs⟩
    · rcases ih hq with ⟨h1, h2⟩
      exact ⟨List.mem_cons_of_mem r h1, h2⟩

lemma stageB_mem {feats : List FeatRow} {sf lf : Option (List (String × String))}
    {r : AugRow} (h : r ∈ stageB_augment feats sf lf) :
    r.feat ∈ feats
    ∧ ((∀ e ∈ sf.getD [], ¬ normalize_id e.1 = some r.feat.user_id) →
        r.split = "unknown")
    ∧ ((∀ e ∈ lf.getD [], ¬ normalize_id e.1 = some r.feat.user_id) →
        r.label = "unknown") := by
  unfold stageB_augment at h
  rcases List.mem_map.mp h with ⟨q, hq, hqe⟩
  rcases mem_leftJoin hq with ⟨hq1, hlab⟩
  rcases mem_leftJoin hq1 with ⟨hfeat, hsplit⟩
  subst hqe
  refine ⟨hfeat, ?_, ?_⟩
  · intro hno
    rcases hsplit with ⟨hnone, _⟩ | ⟨e, he, hek, _⟩
    · simp [hnone]
    · exfalso
      rcases List.mem_map.mp he with ⟨raw, hraw, hre⟩
      apply hno raw hraw
      rw [← hre] at hek
      exact hek
  · intro hno
    rcases hlab with ⟨hnone, _⟩ | ⟨e, he, hek, _⟩
    · simp [hnone]
    · exfalso
      rcases List.mem_map.mp he with ⟨raw, hraw, hre⟩
      apply hno raw hraw
      rw [← hre] at hek
      exact hek

lemma if_tt {α : Type} (a b : α) : (if true = true then a else b) = a := rfl

lemma if_ff {α : Type} (a b : α) : (if false = true then a else b) = b := rfl

lemma counts_three (l : List AugRow) :
    (subsetFor l "train").length + (subsetFor l "val").length
      + (subsetFor l "test").length
      = (l.filter (fun r => r.split = "train" ∨ r.split = "val" ∨ r.split = "test")).length := by
  induction l with
  | nil => rfl
  | cons r t ih =>
    simp only [subsetFor] at ih ⊢
    rw [List.filter_cons, List.filter_cons, List.filter_cons, List.filter_cons]
    by_cases h1 : r.split = "train"
    · rw [decide_eq_true h1,
        decide_eq_false (show ¬ r.split = "val" by rw [h1]; decide),
        decide_eq_false (show ¬ r.split = "test" by rw [h1]; decide),
        decide_eq_true (Or.inl h1 :
          r.split = "train" ∨ r.split = "val" ∨ r.split = "test")]
      rw [if_tt, if_ff, if_ff, if_tt]
      simp only [List.length_cons]
      omega
    · by_cases h2 : r.split = "val"
      · rw [decide_eq_false h1, decide_eq_true h2,
          decide_eq_false (show ¬ r.split = "test" by rw [h2]; decide),
          decide_eq_true (Or.inr (Or.inl h2) :
            r.split = "train" ∨ r.split = "val" ∨ r.split = "test")]
        rw [if_ff, if_tt, if_ff, if_tt]
        simp only [List.length_cons]
        omega
      · by_cases h3 : r.split = "test"
        · rw [decide_eq_false h1, decide_eq_false h2, decide_eq_true h3,
            decide_eq_true (Or.inr (Or.inr h3) :
              r.split = "train" ∨ r.split = "val" ∨ r.split = "test")]
          rw [if_ff, if_ff, if_tt, if_tt]
          simp only [List.length_cons]
          omega
        · rw [decide_eq_false h1, decide_eq_false h2, decide_eq_false h3,
            decide_eq_false (show
              ¬ (r.split = "train" ∨ r.split = "val" ∨ r.split = "test") from
              fun h => h.elim h1 (fun h => h.elim h2 h3))]
          rw [if_ff, if_ff, if_ff, if_ff]
          omega

/-- C6: Stage B partitioning is exhaustive and exclusive over
`{train, val, test}`: the three subset row counts sum to the number of
augmented rows whose split is one of the three literals; a row whose split
is any other value (such as the `"unknown"` sentinel) is in none of the
subsets; and no row value lies in two subsets selected by distinct names. -/
theorem C6_partition_thm (feats : List FeatRow)
    (sf lf : Option (List (String × String))) :
    ((subsetFor (stageB_augment feats sf lf) "train").length
      + (subsetFor (stageB_augment feats sf lf) "val").length
      + (subsetFor (stageB_augment feats sf lf) "test").length
      = ((stageB_augment feats sf lf).filter
          (fun r => r.split = "train" ∨ r.split = "val" ∨ r.split = "test")).length)
    ∧ (∀ r ∈ stageB_augment feats sf lf,
        ¬ (r.split = "train" ∨ r.split = "val" ∨ r.split = "test") →
          r ∉ subsetFor (stageB_augment feats sf lf) "train"
          ∧ r ∉ subsetFor (stageB_augment feats sf lf) "val"
          ∧ r ∉ subsetFor (stageB_augment feats sf lf) "test")
    ∧ (∀ r : AugRow, ∀ a b : String, ¬ a = b →
        ¬ (r ∈ subsetFor (stageB_augment feats sf lf) a
          ∧ r ∈ subsetFor (stageB_augment feats sf lf) b)) := by
  refine ⟨counts_three _, ?_, ?_⟩
  · intro r _ hno
    refine ⟨?_, ?_, ?_⟩ <;> intro hmem
    · exact hno (Or.inl (by simpa using (List.mem_filter.mp hmem).2))
    · exact hno (Or.inr (Or.inl (by simpa using (List.mem_filter.mp hmem).2)))
    · exact hno (Or.inr (Or.inr (by simpa using (List.mem_filter.mp hmem).2)))
  · rintro r a b hab ⟨ha, hb⟩
    have h1 : r.split = a := by simpa using (List.mem_filter.mp ha).2
    have h2 : r.split = b := by simpa using (List.mem_filter.mp hb).2
    exact hab (h1.symm.trans h2)

/-- C6 witness: a row whose split is the unrecognized value "x" is excluded
from the train subset of its run. -/
theorem C6_partition_witness :
    ({ feat := fDemo, split := "x", label := "unknown" } : AugRow)
      ∉ subsetFor (stageB_augment [fDemo] (some [("u12", "x")]) none) "train" :=
  (((C6_partition_thm [fDemo] (some [("u12", "x")]) none).2.1
    { feat := fDemo, split := "x", label := "unknown" } (List.Mem.head _)) (by decide)).1

/-- C7: a missing split or label file is non-fatal and behaves exactly as an
empty table; and any output row whose user id matches no entry of the
(normalized) split table gets split `"unknown"`, likewise for the label
table — the columns are total strings, never null. -/
theorem C7_missing_table_thm (feats : List FeatRow)
    (sf lf : Option (List (String × String))) :
    stageB_augment feats none lf = stageB_augment feats (some []) lf
    ∧ stageB_augment feats sf none = stageB_augment feats sf (some [])
    ∧ ∀ r ∈ stageB_augment feats sf lf,
        ((∀ e ∈ sf.getD [], ¬ normalize_id e.1 = some r.feat.user_id) →
          r.split = "unknown")
        ∧ ((∀ e ∈ lf.getD [], ¬ normalize_id e.1 = some r.feat.user_id) →
          r.label = "unknown") :=
  ⟨rfl, rfl, fun _ hr => ⟨(stageB_mem hr).2.1, (stageB_mem hr).2.2⟩⟩

/-- C7 witness: with a split table whose only key matches no user and a
missing label file, the output row for the demo user carries the sentinel in
both columns. -/
theorem C7_missing_table_witness :
    ({ feat := fDemo, split := "unknown", label := "unknown" } : AugRow).split = "unknown"
    ∧ ({ feat := fDemo, split := "unknown", label := "unknown" } : AugRow).label = "unknown" := by
  have h := (C7_missing_table_thm [fDemo] (some [("zz", "train")]) none).2.2
    { feat := fDemo, split := "unknown", label := "unknown" } (List.Mem.head _)
  exact ⟨h.1 (by decide), h.2 (by decide)⟩

/-- C10: Stage B never alters a Stage A feature value: every row of the full
augmented output, and of any split subset, carries a feature record (user id
plus the six feature columns) that is literally one of the input feature
rows; augmentation only appends `split` and `label`. -/
theorem C10_frame_thm (feats : List FeatRow)
    (sf lf : Option (List (String × String))) (name : String) :
    (∀ r ∈ stageB_augment feats sf lf, r.feat ∈ feats)
    ∧ (∀ r ∈ subsetFor (stageB_augment feats sf lf) name, r.feat ∈ feats) :=
  ⟨fun _ hr => (stageB_mem hr).1,
    fun _ hr => (stageB_mem (List.mem_filter.mp hr).1).1⟩

/-- C10 witness: the demo run's train-subset row carries the untouched input
feature record. -/
theorem C10_frame_witness :
    ({ feat := fDemo, split := "train", label := "unknown" } : AugRow).feat ∈ [fDemo] :=
  (C10_frame_thm [fDemo] (some [("u12", "train")]) none "train").2
    { feat := fDemo, split := "train", label := "unknown" } (List.Mem.head _)

/-- C5 (amended): Stage B key normalization removes every occurrence of the
character `u` from the key and parses the result as an integer; when the
result is not numeric the key is coerced to a null marker rather than
raising, and rows whose keys all fail to normalize never join — their split
and label resolve to the sentinel `"unknown"`. -/
theorem C5_normalize_thm (feats : List FeatRow) (sf lf : List (String × String))
    (hsf : ∀ e ∈ sf, normalize_id e.1 = none)
    (hlf : ∀ e ∈ lf, normalize_id e.1 = none) :
    ∀ r ∈ stageB_augment feats (some sf) (some lf),
      r.split = "unknown" ∧ r.label = "unknown" := by
  intro r hr
  refine ⟨(stageB_mem hr).2.1 ?_, (stageB_mem hr).2.2 ?_⟩
  · intro e he hek
    rw [hsf e he] at hek
    exact Option.noConfusion hek
  · intro e he hek
    rw [hlf e he] at hek
    exact Option.noConfusion hek

/-- C5 counterexample: the key `"u1u2"` has a non-numeric remainder after
stripping its one-character prefix, so by the claim it should fail to join;
but the code removes every `u`, normalizes it to `12`, and the row joins —
user 12 receives split `"train"` instead of `"unknown"`. -/
theorem C5_normalize_cex :
    normalize_id "u1u2" = some 12
    ∧ normalize_id_claimed "u1u2" = none
    ∧ (stageB_augment [fDemo] (some [("u1u2", "train")]) (some [])).map
        (fun r => r.split) = ["train"] :=
  ⟨by decide, by decide, by decide⟩

/-- C5 witness: keys with no digits normalize to the null marker and their
rows resolve to the sentinel in both columns. -/
theorem C5_normalize_witness :
    ∃ r, r ∈ stageB_augment [fDemo] (some [("abc", "train")]) (some [("zz", "bot")])
      ∧ r.split = "unknown" ∧ r.label = "unknown" :=
  ⟨{ feat := fDemo, split := "unknown", label := "unknown" }, List.Mem.head _,
    C5_normalize_thm [fDemo] [("abc", "train")] [("zz", "bot")] (by decide) (by decide)
      { feat := fDemo, split := "unknown", label := "unknown" } (List.Mem.head _)⟩
